import Mathlib

/-!
Verification of the Via resource-compiler core (the `via-core` crate):
a shallow embedding of the parse-tree-to-AST builders of
`src/via-core/src/parser.rs`, of the batch pipeline of
`src/via-core/src/main.rs`, and — where the repository's sources are not
available (the `via.pest` grammar file and the `codegen` module) — of the
grammar and the code generator as described by the design document.
-/

namespace Via

/-! ## Parse-tree rules and pairs

Mirrors pest's `Rule` enumeration (as referenced by `parser.rs`) and the
`Pair` parse-tree node: a rule tag, the matched text slice, and the list
of inner pairs. -/

inductive Rule where
  | file
  | EOI
  | resource
  | model_section
  | controller_section
  | field_decl
  | name_opt
  | type_ref
  | optional_mark
  | field_attr
  | serialize_attr
  | bool_literal
  | params_section
  | params_profile
  | param_entry_list
  | param_entry
  | respond_with_section
  | format_list
  | actions_section
  | ident
deriving DecidableEq, Repr

/-- Human-readable rule name, standing in for Rust's `{:?}` formatting of
`Rule` in error messages. -/
def ruleName : Rule → String
  | .file => "file"
  | .EOI => "EOI"
  | .resource => "resource"
  | .model_section => "model_section"
  | .controller_section => "controller_section"
  | .field_decl => "field_decl"
  | .name_opt => "name_opt"
  | .type_ref => "type_ref"
  | .optional_mark => "optional_mark"
  | .field_attr => "field_attr"
  | .serialize_attr => "serialize_attr"
  | .bool_literal => "bool_literal"
  | .params_section => "params_section"
  | .params_profile => "params_profile"
  | .param_entry_list => "param_entry_list"
  | .param_entry => "param_entry"
  | .respond_with_section => "respond_with_section"
  | .format_list => "format_list"
  | .actions_section => "actions_section"
  | .ident => "ident"

/-- A pest parse-tree node: rule tag, matched source text, inner pairs. -/
inductive Pair where
  | mk (rule : Rule) (str : String) (inner : List Pair)

def Pair.rule : Pair → Rule
  | .mk r _ _ => r

def Pair.str : Pair → String
  | .mk _ s _ => s

def Pair.inner : Pair → List Pair
  | .mk _ _ i => i

/-! ## AST (from `src/via-core/src/ast.rs`) -/

structure TypeRef where
  name : String
  optional : Bool
deriving DecidableEq, Repr

structure FieldAttributes where
  serialize : Option Bool := none
deriving DecidableEq, Repr

structure Field where
  name : String
  ty : TypeRef
  optional : Bool
  attributes : FieldAttributes
deriving DecidableEq, Repr

structure Model where
  fields : List Field
deriving DecidableEq, Repr

inductive ParamsKind where
  | Editable
  | Named (s : String)
deriving DecidableEq, Repr

structure ParamEntry where
  name : String
  optional : Bool
deriving DecidableEq, Repr

structure ParamsProfile where
  name : ParamsKind
  entries : List ParamEntry
deriving DecidableEq, Repr

structure Action where
  name : String
  body : Option String
deriving DecidableEq, Repr

inductive ControllerActions where
  | AutoCrud
  | Manual (actions : List Action)
deriving DecidableEq, Repr

structure Controller where
  params : List ParamsProfile := []
  respond_with : List String := []
  actions : ControllerActions := .AutoCrud
deriving DecidableEq, Repr

structure Resource where
  name : String
  model : Option Model
  controller : Option Controller
  file_path : String
deriving DecidableEq, Repr

/-! ## AST builders (from `src/via-core/src/parser.rs`)

Each Rust builder `fn parse_x(pair) -> Result<T>` becomes a Lean function
`Pair → Except String T`; `anyhow!` errors become `.error` strings. -/

/-- `parse_bool` of `parser.rs`. -/
def parse_bool (pair : Pair) : Except String Bool :=
  match pair.str with
  | "true" => .ok true
  | "false" => .ok false
  | other => .error ("Unexpected bool literal: " ++ other)

/-- `parse_name_opt` of `parser.rs`: a pair with no inner pairs is itself
the identifier; otherwise the first inner pair is the identifier and a
second inner pair marks optionality when its rule is `optional_mark`. -/
def parse_name_opt (pair : Pair) : Except String (String × Bool) :=
  if pair.inner.length = 0 then
    .ok (pair.str, false)
  else
    match pair.inner with
    | [] => .error "Missing identifier"
    | ident_pair :: rest =>
      let optional : Bool :=
        match rest with
        | [] => false
        | mark :: _ => mark.rule = Rule.optional_mark
      .ok (ident_pair.str, optional)

/-- `parse_type` of `parser.rs`. -/
def parse_type (pair : Pair) : Except String TypeRef :=
  match pair.inner with
  | [] => .error "Type missing identifier"
  | ident_pair :: rest =>
    let optional : Bool :=
      match rest with
      | [] => false
      | mark :: _ => mark.rule = Rule.optional_mark
    .ok { name := ident_pair.str, optional := optional }

mutual

/-- `parse_field_attr` of `parser.rs` (single pair); the Rust function
mutates `attrs`, modelled by state passing. -/
def parse_field_attr : Pair → FieldAttributes → Except String FieldAttributes
  | .mk .field_attr _ inner, attrs => parse_field_attr_list inner attrs
  | .mk .serialize_attr _ inner, attrs =>
    match inner with
    | [] => .error "serialize attribute missing value"
    | value_pair :: _ =>
      match parse_bool value_pair with
      | .error e => .error e
      | .ok b => .ok { attrs with serialize := some b }
  | .mk other _ _, _ =>
    .error ("Unsupported field attribute variant: " ++ ruleName other)

/-- The attribute loop of `parse_field` in `parser.rs`: fold
`parse_field_attr` over the remaining pairs. -/
def parse_field_attr_list : List Pair → FieldAttributes → Except String FieldAttributes
  | [], attrs => .ok attrs
  | p :: ps, attrs =>
    match parse_field_attr p attrs with
    | .error e => .error e
    | .ok attrs1 => parse_field_attr_list ps attrs1

end

/-- `parse_field` of `parser.rs`: name (with name-level optional marker),
type (with type-level optional marker), then attributes; `Field.optional`
is the OR of the two markers. -/
def parse_field (pair : Pair) : Except String Field :=
  match pair.inner with
  | [] => .error "Field missing name"
  | name_pair :: rest =>
    match parse_name_opt name_pair with
    | .error e => .error e
    | .ok (name, opt_flag) =>
      match rest with
      | [] => .error "Field missing type"
      | ty_pair :: attr_pairs =>
        match parse_type ty_pair with
        | .error e => .error e
        | .ok ty =>
          match parse_field_attr_list attr_pairs {} with
          | .error e => .error e
          | .ok attributes =>
            .ok { name := name, optional := opt_flag || ty.optional,
                  ty := ty, attributes := attributes }

/-- The item loop of `parse_model` in `parser.rs`. -/
def parse_model_items : List Pair → Except String (List Field)
  | [] => .ok []
  | item :: rest =>
    match item.rule with
    | .field_decl =>
      match parse_field item with
      | .error e => .error e
      | .ok f =>
        match parse_model_items rest with
        | .error e => .error e
        | .ok fs => .ok (f :: fs)
    | other => .error ("Unsupported model item: " ++ ruleName other)

/-- `parse_model` of `parser.rs`. -/
def parse_model (pair : Pair) : Except String Model :=
  match parse_model_items pair.inner with
  | .error e => .error e
  | .ok fields => .ok { fields := fields }

/-- `parse_param_entry` of `parser.rs`. -/
def parse_param_entry (pair : Pair) : Except String ParamEntry :=
  match parse_name_opt pair with
  | .error e => .error e
  | .ok (name, optional) => .ok { name := name, optional := optional }

/-- The entry loop of the `param_entry_list` branch of
`parse_params_profile` in `parser.rs`. -/
def parse_entries : List Pair → Except String (List ParamEntry)
  | [] => .ok []
  | p :: ps =>
    match parse_param_entry p with
    | .error e => .error e
    | .ok e =>
      match parse_entries ps with
      | .error e2 => .error e2
      | .ok es => .ok (e :: es)

/-- `parse_params_profile` of `parser.rs`. Note the wildcard arm of the
Rust `match` on the second inner pair's rule: an unexpected rule leaves
`entries` empty without error. -/
def parse_params_profile (pair : Pair) : Except String ParamsProfile :=
  match pair.inner with
  | [] => .error "Params profile missing name"
  | name_pair :: rest =>
    let kind : ParamsKind :=
      if name_pair.str = "editable" then .Editable else .Named name_pair.str
    match rest with
    | [] => .ok { name := kind, entries := [] }
    | list_pair :: _ =>
      match list_pair.rule with
      | .param_entry_list =>
        match parse_entries list_pair.inner with
        | .error e => .error e
        | .ok es => .ok { name := kind, entries := es }
      | .param_entry =>
        match parse_param_entry list_pair with
        | .error e => .error e
        | .ok e => .ok { name := kind, entries := [e] }
      | _ => .ok { name := kind, entries := [] }

/-- The profile loop of `parse_params_section` in `parser.rs`. -/
def parse_profiles : List Pair → Except String (List ParamsProfile)
  | [] => .ok []
  | p :: ps =>
    match p.rule with
    | .params_profile =>
      match parse_params_profile p with
      | .error e => .error e
      | .ok prof =>
        match parse_profiles ps with
        | .error e => .error e
        | .ok profs => .ok (prof :: profs)
    | other => .error ("Unsupported params profile: " ++ ruleName other)

/-- `parse_params_section` of `parser.rs`. -/
def parse_params_section (pair : Pair) : Except String (List ParamsProfile) :=
  parse_profiles pair.inner

/-- `parse_respond_with` of `parser.rs`. Note the wildcard arm: an
unexpected rule on the single inner pair yields an empty format list
without error. -/
def parse_respond_with (pair : Pair) : Except String (List String) :=
  match pair.inner with
  | [] => .ok []
  | list_pair :: _ =>
    match list_pair.rule with
    | .format_list => .ok (list_pair.inner.map Pair.str)
    | .ident => .ok [list_pair.str]
    | _ => .ok []

/-- The item loop of `parse_controller` in `parser.rs`, threading the
`Controller` value mutated by the Rust loop. -/
def parse_controller_items : List Pair → Controller → Except String Controller
  | [], c => .ok c
  | item :: rest, c =>
    match item.rule with
    | .params_section =>
      match parse_params_section item with
      | .error e => .error e
      | .ok ps => parse_controller_items rest { c with params := ps }
    | .respond_with_section =>
      match parse_respond_with item with
      | .error e => .error e
      | .ok fs => parse_controller_items rest { c with respond_with := fs }
    | .actions_section =>
      parse_controller_items rest { c with actions := .AutoCrud }
    | other => .error ("Unsupported controller item: " ++ ruleName other)

/-- `parse_controller` of `parser.rs`: starts from `Controller::default()`
(empty params, empty respond_with, AutoCrud). -/
def parse_controller (pair : Pair) : Except String Controller :=
  parse_controller_items pair.inner {}

/-- The item loop of `parse_resource` in `parser.rs`: each `model_section`
(`controller_section`) overwrites the current model (controller). -/
def parse_resource_items :
    List Pair → Option Model → Option Controller →
    Except String (Option Model × Option Controller)
  | [], m, c => .ok (m, c)
  | item :: rest, m, c =>
    match item.rule with
    | .model_section =>
      match parse_model item with
      | .error e => .error e
      | .ok model => parse_resource_items rest (some model) c
    | .controller_section =>
      match parse_controller item with
      | .error e => .error e
      | .ok ctrl => parse_resource_items rest m (some ctrl)
    | other => .error ("Unsupported resource item: " ++ ruleName other)

/-- `parse_resource` of `parser.rs`; `path` is the originating file path
(`to_string_lossy` of the Rust `&Path`). -/
def parse_resource (pair : Pair) (path : String) : Except String Resource :=
  match pair.inner with
  | [] => .error "Resource missing identifier"
  | name_pair :: items =>
    match parse_resource_items items none none with
    | .error e => .error e
    | .ok (m, c) =>
      .ok { name := name_pair.str, model := m, controller := c, file_path := path }

/-! ## Grammar-level parse

Modelled from the spec: the repository's `via.pest` grammar file is not
among the available sources, so `ViaParser::parse(Rule::file, src)` is
modelled as a character-level recursive-descent parser following the
grammar of the design document (file := resource* EOI; resource :=
"resource" ident, brace, (model_section | controller_section)*, brace; and so
on), with pest's implicit whitespace skipping between tokens.  Starred
repetitions are written with an explicit fuel argument; callers supply
fuel exceeding the remaining input length, so fuel never runs out on any
actual input.  On failure the parser reports the unconsumed suffix at the
point of divergence, standing in for pest's error position. -/

def isViaWs (c : Char) : Bool :=
  c == ' ' || c == '\t' || c == '\r' || c == '\n'

def isIdentStart (c : Char) : Bool := c.isAlpha || c == '_'

def isIdentCont (c : Char) : Bool := c.isAlphanum || c == '_'

/-- Skip pest implicit whitespace. -/
def skipWs : List Char → List Char
  | [] => []
  | c :: cs => if isViaWs c then skipWs cs else c :: cs

/-- Grammar-level error: the unconsumed input at the failure point, plus a
message.  `parse_str` converts the suffix into a line/column pair. -/
structure PErr where
  remaining : List Char
  msg : String
deriving DecidableEq, Repr

/-- Match a literal token against the head of the input, returning the
remainder on success. -/
def litMatch : List Char → List Char → Option (List Char)
  | [], cs => some cs
  | _ :: _, [] => none
  | t :: ts, c :: cs => if c == t then litMatch ts cs else none

/-- Modelled from the spec: consume a literal token (whitespace first). -/
def pLit (tok : String) (cs : List Char) : Except PErr (Unit × List Char) :=
  match litMatch tok.toList (skipWs cs) with
  | some rest => .ok ((), rest)
  | none => .error ⟨skipWs cs, "expected " ++ tok⟩

/-- Does a literal token come next (after whitespace)? -/
def peekTok (tok : String) (cs : List Char) : Bool :=
  (litMatch tok.toList (skipWs cs)).isSome

/-- Does the next non-whitespace character satisfy the test? -/
def peekPred (p : Char → Bool) (cs : List Char) : Bool :=
  match skipWs cs with
  | [] => false
  | c :: _ => p c

/-- Modelled from the spec: `ident`, producing an `ident` pair. -/
def pIdent (cs : List Char) : Except PErr (Pair × List Char) :=
  match skipWs cs with
  | [] => .error ⟨[], "expected identifier"⟩
  | c :: rest =>
    if isIdentStart c then
      .ok (⟨.ident, String.mk (c :: rest.takeWhile isIdentCont), []⟩,
           rest.dropWhile isIdentCont)
    else .error ⟨c :: rest, "expected identifier"⟩

/-- Modelled from the spec: `optional_mark?` — a question mark after the
identifier, when present. -/
def pOptMark (cs : List Char) : Option (Pair × List Char) :=
  match skipWs cs with
  | '?' :: rest => some (⟨.optional_mark, "?", []⟩, rest)
  | _ => none

/-- Modelled from the spec: `ident ~ optional_mark?`, the shared inner
shape of `name_opt`, `type_ref` and `param_entry`. -/
def pNameParts (cs : List Char) : Except PErr (List Pair × List Char) :=
  match pIdent cs with
  | .error e => .error e
  | .ok (idp, rest) =>
    match pOptMark rest with
    | some (q, rest1) => .ok ([idp, q], rest1)
    | none => .ok ([idp], rest)

/-- Modelled from the spec: `bool_literal`. -/
def pBool (cs : List Char) : Except PErr (Pair × List Char) :=
  match litMatch "true".toList (skipWs cs) with
  | some rest => .ok (⟨.bool_literal, "true", []⟩, rest)
  | none =>
    match litMatch "false".toList (skipWs cs) with
    | some rest => .ok (⟨.bool_literal, "false", []⟩, rest)
    | none => .error ⟨skipWs cs, "expected bool literal"⟩

/-- Modelled from the spec: `field_attr := "@serialize" "(" bool ")"`,
wrapping a `serialize_attr` pair as the Rust builder expects. -/
def pFieldAttr (cs : List Char) : Except PErr (Pair × List Char) := do
  let (_, r1) ← pLit "@serialize" cs
  let (_, r2) ← pLit "(" r1
  let (b, r3) ← pBool r2
  let (_, r4) ← pLit ")" r3
  return (⟨.field_attr, "", [⟨.serialize_attr, "", [b]⟩]⟩, r4)

/-- Modelled from the spec: `field_attr*`. -/
def pFieldAttrs : Nat → List Char → Except PErr (List Pair × List Char)
  | 0, cs => .error ⟨cs, "fuel exhausted"⟩
  | fuel + 1, cs =>
    if peekTok "@" cs then do
      let (a, r1) ← pFieldAttr cs
      let (rest, r2) ← pFieldAttrs fuel r1
      return (a :: rest, r2)
    else .ok ([], cs)

/-- Modelled from the spec: `field_decl := name_opt ":" type_ref field_attr*`. -/
def pFieldDecl (cs : List Char) : Except PErr (Pair × List Char) := do
  let (nameParts, r1) ← pNameParts cs
  let (_, r2) ← pLit ":" r1
  let (tyParts, r3) ← pNameParts r2
  let (attrs, r4) ← pFieldAttrs (r3.length + 1) r3
  return (⟨.field_decl, "", ⟨.name_opt, "", nameParts⟩ :: ⟨.type_ref, "", tyParts⟩ :: attrs⟩, r4)

/-- Modelled from the spec: `field_decl*`. -/
def pFields : Nat → List Char → Except PErr (List Pair × List Char)
  | 0, cs => .error ⟨cs, "fuel exhausted"⟩
  | fuel + 1, cs =>
    if peekPred isIdentStart cs then do
      let (f, r1) ← pFieldDecl cs
      let (fs, r2) ← pFields fuel r1
      return (f :: fs, r2)
    else .ok ([], cs)

/-- Modelled from the spec: `model_section := "model" "{" field_decl* "}"`. -/
def pModelSection (cs : List Char) : Except PErr (Pair × List Char) := do
  let (_, r1) ← pLit "model" cs
  let (_, r2) ← pLit "\x7b" r1
  let (fs, r3) ← pFields (r2.length + 1) r2
  let (_, r4) ← pLit "\x7d" r3
  return (⟨.model_section, "", fs⟩, r4)

/-- Modelled from the spec: `param_entry := name_opt`. -/
def pParamEntry (cs : List Char) : Except PErr (Pair × List Char) := do
  let (parts, r1) ← pNameParts cs
  return (⟨.param_entry, "", parts⟩, r1)

/-- Modelled from the spec: `("," param_entry)*`. -/
def pEntryTail : Nat → List Char → Except PErr (List Pair × List Char)
  | 0, cs => .error ⟨cs, "fuel exhausted"⟩
  | fuel + 1, cs =>
    if peekTok "," cs then do
      let (_, r1) ← pLit "," cs
      let (e, r2) ← pParamEntry r1
      let (es, r3) ← pEntryTail fuel r2
      return (e :: es, r3)
    else .ok ([], cs)

/-- Modelled from the spec:
`param_entry_list := "[" param_entry ("," param_entry)* "]"`. -/
def pParamEntryList (cs : List Char) : Except PErr (Pair × List Char) := do
  let (_, r1) ← pLit "[" cs
  let (e, r2) ← pParamEntry r1
  let (es, r3) ← pEntryTail (r2.length + 1) r2
  let (_, r4) ← pLit "]" r3
  return (⟨.param_entry_list, "", e :: es⟩, r4)

/-- Modelled from the spec:
`params_profile := ident (param_entry_list | param_entry)?` (the profile
name is captured as an `ident` pair so the builder can compare it against
"editable"). -/
def pParamsProfile (cs : List Char) : Except PErr (Pair × List Char) := do
  let (namePair, r1) ← pIdent cs
  if peekTok "[" r1 then do
    let (lst, r2) ← pParamEntryList r1
    return (⟨.params_profile, "", [namePair, lst]⟩, r2)
  else if peekPred isIdentStart r1 then do
    let (e, r2) ← pParamEntry r1
    return (⟨.params_profile, "", [namePair, e]⟩, r2)
  else
    return (⟨.params_profile, "", [namePair]⟩, r1)

/-- Modelled from the spec: `params_profile*`. -/
def pProfiles : Nat → List Char → Except PErr (List Pair × List Char)
  | 0, cs => .error ⟨cs, "fuel exhausted"⟩
  | fuel + 1, cs =>
    if peekPred isIdentStart cs then do
      let (p, r1) ← pParamsProfile cs
      let (ps, r2) ← pProfiles fuel r1
      return (p :: ps, r2)
    else .ok ([], cs)

/-- Modelled from the spec:
`params_section := "params" "{" params_profile* "}"`. -/
def pParamsSection (cs : List Char) : Except PErr (Pair × List Char) := do
  let (_, r1) ← pLit "params" cs
  let (_, r2) ← pLit "\x7b" r1
  let (ps, r3) ← pProfiles (r2.length + 1) r2
  let (_, r4) ← pLit "\x7d" r3
  return (⟨.params_section, "", ps⟩, r4)

/-- Modelled from the spec: `("," ident)*` inside a format list. -/
def pFormatTail : Nat → List Char → Except PErr (List Pair × List Char)
  | 0, cs => .error ⟨cs, "fuel exhausted"⟩
  | fuel + 1, cs =>
    if peekTok "," cs then do
      let (_, r1) ← pLit "," cs
      let (f, r2) ← pIdent r1
      let (fs, r3) ← pFormatTail fuel r2
      return (f :: fs, r3)
    else .ok ([], cs)

/-- Modelled from the spec:
`respond_with_section := "respond_with" (format_list | ident)`. -/
def pRespondWith (cs : List Char) : Except PErr (Pair × List Char) := do
  let (_, r1) ← pLit "respond_with" cs
  if peekTok "[" r1 then do
    let (_, r2) ← pLit "[" r1
    let (f, r3) ← pIdent r2
    let (fs, r4) ← pFormatTail (r3.length + 1) r3
    let (_, r5) ← pLit "]" r4
    return (⟨.respond_with_section, "", [⟨.format_list, "", f :: fs⟩]⟩, r5)
  else do
    let (f, r2) ← pIdent r1
    return (⟨.respond_with_section, "", [f]⟩, r2)

/-- Modelled from the spec: `actions_section := "actions" "{" "}"`. -/
def pActions (cs : List Char) : Except PErr (Pair × List Char) := do
  let (_, r1) ← pLit "actions" cs
  let (_, r2) ← pLit "\x7b" r1
  let (_, r3) ← pLit "\x7d" r2
  return (⟨.actions_section, "", []⟩, r3)

/-- Modelled from the spec:
`(params_section | respond_with_section | actions_section)*`. -/
def pCtrlItems : Nat → List Char → Except PErr (List Pair × List Char)
  | 0, cs => .error ⟨cs, "fuel exhausted"⟩
  | fuel + 1, cs =>
    if peekTok "params" cs then do
      let (s, r1) ← pParamsSection cs
      let (ss, r2) ← pCtrlItems fuel r1
      return (s :: ss, r2)
    else if peekTok "respond_with" cs then do
      let (s, r1) ← pRespondWith cs
      let (ss, r2) ← pCtrlItems fuel r1
      return (s :: ss, r2)
    else if peekTok "actions" cs then do
      let (s, r1) ← pActions cs
      let (ss, r2) ← pCtrlItems fuel r1
      return (s :: ss, r2)
    else .ok ([], cs)

/-- Modelled from the spec:
`controller_section := "controller" "{" ... "}"`. -/
def pControllerSection (cs : List Char) : Except PErr (Pair × List Char) := do
  let (_, r1) ← pLit "controller" cs
  let (_, r2) ← pLit "\x7b" r1
  let (ss, r3) ← pCtrlItems (r2.length + 1) r2
  let (_, r4) ← pLit "\x7d" r3
  return (⟨.controller_section, "", ss⟩, r4)

/-- Modelled from the spec: `(model_section | controller_section)*`. -/
def pResItems : Nat → List Char → Except PErr (List Pair × List Char)
  | 0, cs => .error ⟨cs, "fuel exhausted"⟩
  | fuel + 1, cs =>
    if peekTok "model" cs then do
      let (s, r1) ← pModelSection cs
      let (ss, r2) ← pResItems fuel r1
      return (s :: ss, r2)
    else if peekTok "controller" cs then do
      let (s, r1) ← pControllerSection cs
      let (ss, r2) ← pResItems fuel r1
      return (s :: ss, r2)
    else .ok ([], cs)

/-- Modelled from the spec:
`resource := "resource" ident "{" (model_section | controller_section)* "}"`. -/
def pResource (cs : List Char) : Except PErr (Pair × List Char) := do
  let (_, r1) ← pLit "resource" cs
  let (namePair, r2) ← pIdent r1
  let (_, r3) ← pLit "\x7b" r2
  let (ss, r4) ← pResItems (r3.length + 1) r3
  let (_, r5) ← pLit "\x7d" r4
  return (⟨.resource, "", namePair :: ss⟩, r5)

/-- Modelled from the spec: `resource*`. -/
def pResources : Nat → List Char → Except PErr (List Pair × List Char)
  | 0, cs => .error ⟨cs, "fuel exhausted"⟩
  | fuel + 1, cs =>
    if peekTok "resource" cs then
      match pResource cs with
      | .error e => .error e
      | .ok (r, r1) =>
        match pResources fuel r1 with
        | .error e => .error e
        | .ok (rs, r2) => .ok (r :: rs, r2)
    else .ok ([], cs)

/-- Modelled from the spec: `file := resource* EOI` — the whole input must
be consumed (up to trailing whitespace), else the parse fails at the
first point of divergence from the grammar. -/
def pFile (cs : List Char) : Except PErr Pair :=
  match pResources (cs.length + 1) cs with
  | .error e => .error e
  | .ok (rs, rest) =>
    match skipWs rest with
    | [] => .ok ⟨.file, "", rs ++ [⟨.EOI, "", []⟩]⟩
    | c :: more => .error ⟨c :: more, "expected resource or end of input"⟩

/-- Modelled from the spec: `ViaParser::parse(Rule::file, src)` — the
sequence of top-level pairs (on success, the single `file` pair). -/
def pestParse (src : String) : Except PErr (List Pair) :=
  match pFile src.toList with
  | .error e => .error e
  | .ok p => .ok [p]

/-! ## `parse_str` and the batch pipeline (`parser.rs`, `main.rs`) -/

/-- The error type surfaced by `parse_str` and the pipeline.  Rust uses
`anyhow` strings throughout; the grammar-mismatch case is kept structured
here because `parse_str` formats the pest error `with_path`, so the path
and the line/column location are part of the message. -/
inductive ViaError where
  | syntaxErr (path : String) (line col : Nat) (msg : String)
  | internalErr (msg : String)
deriving DecidableEq, Repr

/-- Line/column (1-based) of a grammar error, computed from the consumed
prefix of the source — the model of pest's error position rendering. -/
def locate (src : String) (e : PErr) : Nat × Nat :=
  let consumed := src.toList.take (src.toList.length - e.remaining.length)
  (1 + consumed.count '\n', 1 + (consumed.reverse.takeWhile (fun c => c ≠ '\n')).length)

/-- The loop over the `file` pair's children in `parse_str` of
`parser.rs`: `resource` pairs are parsed and collected in order, `EOI` is
skipped, anything else is an error. -/
def parse_resources_walk : List Pair → String → Except ViaError (List Resource)
  | [], _ => .ok []
  | p :: ps, path =>
    match p.rule with
    | .resource =>
      match parse_resource p path with
      | .error e => .error (.internalErr e)
      | .ok r =>
        match parse_resources_walk ps path with
        | .error e => .error e
        | .ok rs => .ok (r :: rs)
    | .EOI => parse_resources_walk ps path
    | other => .error (.internalErr ("Unexpected rule inside file: " ++ ruleName other))

/-- `parse_str` of `parser.rs`: run the grammar parse, attaching the file
path and the error location on grammar mismatch, then walk the `file`
pair into the resource list. -/
def parse_str (src path : String) : Except ViaError (List Resource) :=
  match pestParse src with
  | .error e =>
    .error (ViaError.syntaxErr path (locate src e).1 (locate src e).2 e.msg)
  | .ok [] => .ok []
  | .ok (file_pair :: _) =>
    if file_pair.rule = .file then parse_resources_walk file_pair.inner path
    else .error (.internalErr ("Expected file rule, found " ++ ruleName file_pair.rule))

/-- One input file handed to the pipeline: its path and its text.  Stands
for a path on disk plus `fs::read_to_string` in `parse_file`. -/
structure SourceFile where
  path : String
  contents : String
deriving DecidableEq, Repr

/-- The parse loop of `run_gen` in `main.rs`: each file's resources are
appended to the aggregate in file order; the `?` operator aborts the run
on the first file that fails to parse. -/
def run_gen_parse : List SourceFile → Except ViaError (List Resource)
  | [] => .ok []
  | f :: fs =>
    match parse_str f.contents f.path with
    | .error e => .error e
    | .ok rs =>
      match run_gen_parse fs with
      | .error e => .error e
      | .ok rest => .ok (rs ++ rest)

/-- A directory-walk entry as seen by `collect_via_files` in `main.rs`:
the entry's path and whether it is a regular file. -/
structure WalkEntry where
  path : String
  isFile : Bool
deriving DecidableEq, Repr

/-- The file name component of a path: everything after the last slash
(Rust `Path::file_name`). -/
def fileNameChars (p : String) : List Char :=
  (p.toList.reverse.takeWhile (fun c => c ≠ '/')).reverse

/-- Rust `Path::extension`: the part of the file name after the last dot,
none when there is no dot or when the only dot is the leading one. -/
def extension (p : String) : Option String :=
  let fn := fileNameChars p
  let ext := fn.reverse.takeWhile (fun c => c ≠ '.')
  if ext.length = fn.length then none
  else if ext.length + 1 = fn.length then none
  else some (String.mk ext.reverse)

/-- `collect_via_files` of `main.rs`: keep regular files with the `via`
extension and sort the surviving paths (`files.sort()`), yielding the
lexicographic processing order.  The directory walk itself is external;
its entries arrive in arbitrary order. -/
def collect_via_files (entries : List WalkEntry) : List String :=
  List.insertionSort (· ≤ ·)
    ((entries.filter (fun e => e.isFile && extension e.path == some "via")).map (·.path))

/-! ## Code generator

Modelled from the spec: the repository's `codegen` module is not among
the available sources (only its callers and tests are), so `generate` is
modelled from the design document: a pure function producing, per
resource, a backend model artifact under `src/models/`, a request-handler
artifact under `src/controllers/`, and a client type-definition artifact
under `ts/models/`, with fields rendered in declaration order, optional
per `Field.optional`, and fields whose `serialize` attribute is
`Some(false)` marked skip-serialize in the model artifact and omitted
from the client artifact. -/

structure GeneratedFile where
  relative_path : String
  contents : String
deriving DecidableEq, Repr

structure Generation where
  files : List GeneratedFile
deriving DecidableEq, Repr

/-- Whether a field is part of the serialized/client-visible
representation: excluded exactly when `serialize == Some(false)`. -/
def serializeVisible (f : Field) : Bool :=
  f.attributes.serialize != some false

/-- The name/optional/serialize-visibility triple of a field, the shape
that must agree between the backend model artifact and the client type
artifact. -/
def fieldTriple (f : Field) : String × Bool × Bool :=
  (f.name, f.optional, serializeVisible f)

/-- The fields the backend model artifact renders: all of them, in
declaration order. -/
def modelArtifactFields (m : Model) : List Field := m.fields

/-- The fields the client type artifact renders: the serialize-visible
ones, in declaration order. -/
def clientArtifactFields (m : Model) : List Field :=
  m.fields.filter serializeVisible

/-- Snake-case file-name derivation from the resource name. -/
def toSnakeAux : List Char → Bool → List Char
  | [], _ => []
  | c :: cs, first =>
    if c.isUpper then
      (if first then [c.toLower] else ['_', c.toLower]) ++ toSnakeAux cs false
    else c :: toSnakeAux cs false

def toSnake (s : String) : String := String.mk (toSnakeAux s.toList true)

/-- Modelled from the spec: one field line of the backend model artifact;
a non-visible field carries a skip-serialize annotation but stays in the
struct. -/
def renderModelField (f : Field) : String :=
  (if serializeVisible f then "" else "    #[serde(skip_serializing)]\n") ++
  "    pub " ++ f.name ++ ": " ++
  (if f.optional then "Option<" ++ f.ty.name ++ ">" else f.ty.name) ++ ",\n"

/-- Modelled from the spec: one field line of the client type artifact. -/
def renderTsField (f : Field) : String :=
  "  " ++ f.name ++ (if f.optional then "?" else "") ++ ": " ++ f.ty.name ++ ";\n"

/-- Modelled from the spec: the backend model artifact text. -/
def modelContents (r : Resource) : String :=
  "pub struct " ++ r.name ++ " \x7b\n" ++
  String.join ((modelArtifactFields (r.model.getD ⟨[]⟩)).map renderModelField) ++
  "\x7d\n"

/-- Modelled from the spec: the client type artifact text. -/
def tsContents (r : Resource) : String :=
  "export interface " ++ r.name ++ " \x7b\n" ++
  String.join ((clientArtifactFields (r.model.getD ⟨[]⟩)).map renderTsField) ++
  "\x7d\n"

/-- Modelled from the spec: the request-handler artifact text — AutoCrud
action set with the editable whitelist and the first-listed (or default)
response format, or the manual actions with their bodies verbatim. -/
def controllerContents (r : Resource) : String :=
  let c := r.controller.getD {}
  let fmt := c.respond_with.headD "json"
  let editable :=
    ((c.params.filter (fun p => p.name == ParamsKind.Editable)).map
      (fun p => p.entries.map (·.name))).flatten
  match c.actions with
  | .AutoCrud =>
    "autocrud " ++ r.name ++ ": list show create update delete\nformat: " ++ fmt ++
    "\neditable: " ++ String.intercalate ", " editable ++ "\n"
  | .Manual acts =>
    String.join (acts.map (fun a =>
      "action " ++ a.name ++ " \x7b\n" ++ a.body.getD "" ++ "\n\x7d\n"))

/-- Modelled from the spec: the three artifacts of one resource. -/
def generateResource (r : Resource) : List GeneratedFile :=
  [ ⟨"src/models/" ++ toSnake r.name ++ ".rs", modelContents r⟩,
    ⟨"src/controllers/" ++ toSnake r.name ++ ".rs", controllerContents r⟩,
    ⟨"ts/models/" ++ toSnake r.name ++ ".ts", tsContents r⟩ ]

/-- Modelled from the spec: `codegen::generate` — pure and total over any
well-formed AST, artifacts in resource order. -/
def generate (resources : List Resource) : Except String Generation :=
  .ok { files := (resources.map generateResource).flatten }

/-- `run_gen` of `main.rs` (without the I/O around it): parse every file,
aborting on the first failure, then run generation once over the full
aggregate.  An error means no generation output exists. -/
def run_gen (files : List SourceFile) : Except ViaError (List Resource × Generation) :=
  match run_gen_parse files with
  | .error e => .error e
  | .ok resources =>
    match generate resources with
    | .error e => .error (.internalErr e)
    | .ok g => .ok (resources, g)

/-! ## Claim theorems -/

/-- C1: for every field declaration, the parsed `Field.optional` flag is
the logical OR of the name-level optional marker and the type-level
optional marker — a field with only one of the two markers is optional,
a field with neither is non-optional — computed once at parse time in
`parse_field`. -/
theorem C1_field_optional_is_or_of_markers
    (r : Rule) (s : String) (name_pair ty_pair : Pair) (attrs : List Pair)
    (f : Field) (n : String) (b : Bool) (t : TypeRef)
    (hn : parse_name_opt name_pair = .ok (n, b))
    (ht : parse_type ty_pair = .ok t)
    (hf : parse_field ⟨r, s, name_pair :: ty_pair :: attrs⟩ = .ok f) :
    f.optional = (b || t.optional) ∧ f.name = n ∧ f.ty = t := by
  simp only [parse_field, Pair.inner, hn, ht] at hf
  cases hA : parse_field_attr_list attrs {} with
  | error e => rw [hA] at hf; exact absurd hf (by simp)
  | ok a =>
    rw [hA] at hf
    simp only [Except.ok.injEq] at hf
    subst hf
    exact ⟨rfl, rfl, rfl⟩

/-- Witness for C1: a field whose type carries the optional marker but
whose name does not is optional. -/
theorem C1_witness :
    (Field.mk "title" ⟨"String", true⟩ true ⟨none⟩).optional = (false || true) ∧
    (Field.mk "title" ⟨"String", true⟩ true ⟨none⟩).name = "title" ∧
    (Field.mk "title" ⟨"String", true⟩ true ⟨none⟩).ty = ⟨"String", true⟩ :=
  C1_field_optional_is_or_of_markers .field_decl ""
    ⟨.name_opt, "", [⟨.ident, "title", []⟩]⟩
    ⟨.type_ref, "", [⟨.ident, "String", []⟩, ⟨.optional_mark, "?", []⟩]⟩
    [] (Field.mk "title" ⟨"String", true⟩ true ⟨none⟩) "title" false ⟨"String", true⟩
    rfl rfl rfl

/-- The controller item loop leaves the params list, the format list and
the actions choice at their incoming values when no corresponding section
appears among the items, and never moves the actions choice away from
`AutoCrud`. -/
theorem parse_controller_items_defaults :
    ∀ (items : List Pair) (acc c : Controller),
      parse_controller_items items acc = .ok c →
      ((∀ i ∈ items, i.rule ≠ Rule.params_section) → c.params = acc.params) ∧
      ((∀ i ∈ items, i.rule ≠ Rule.respond_with_section) → c.respond_with = acc.respond_with) ∧
      (acc.actions = .AutoCrud → c.actions = .AutoCrud) := by
  intro items
  induction items with
  | nil =>
    intro acc c h
    simp only [parse_controller_items, Except.ok.injEq] at h
    subst h
    exact ⟨fun _ => rfl, fun _ => rfl, fun h => h⟩
  | cons i rest ih =>
    intro acc c h
    cases hr : i.rule <;> simp only [parse_controller_items, hr] at h
    case params_section =>
      cases hps : parse_params_section i with
      | error e => rw [hps] at h; exact absurd h (by simp)
      | ok ps =>
        rw [hps] at h
        obtain ⟨h1, h2, h3⟩ := ih _ _ h
        refine ⟨fun hno => absurd hr (hno i (List.mem_cons_self i rest)), ?_, h3⟩
        intro hno
        exact (h2 fun j hj => hno j (List.mem_cons_of_mem i hj)).trans rfl
    case respond_with_section =>
      cases hps : parse_respond_with i with
      | error e => rw [hps] at h; exact absurd h (by simp)
      | ok fs =>
        rw [hps] at h
        obtain ⟨h1, h2, h3⟩ := ih _ _ h
        refine ⟨?_, fun hno => absurd hr (hno i (List.mem_cons_self i rest)), h3⟩
        intro hno
        exact (h1 fun j hj => hno j (List.mem_cons_of_mem i hj)).trans rfl
    case actions_section =>
      obtain ⟨h1, h2, h3⟩ := ih _ _ h
      refine ⟨?_, ?_, fun _ => h3 rfl⟩
      · intro hno
        exact (h1 fun j hj => hno j (List.mem_cons_of_mem i hj)).trans rfl
      · intro hno
        exact (h2 fun j hj => hno j (List.mem_cons_of_mem i hj)).trans rfl
    all_goals exact absurd h (by simp)

/-- C3: for every controller section parsed successfully, absence of a
`params` section yields an empty params-profile list, absence of a
`respond_with` section yields an empty format list, and the actions
choice is `AutoCrud` — both when no `actions` block appears (the default
of `Controller::default()`) and when an (empty) `actions` block is
present, since the `actions_section` arm also assigns `AutoCrud`. -/
theorem C3_controller_defaults (p : Pair) (c : Controller)
    (h : parse_controller p = .ok c) :
    ((∀ i ∈ p.inner, i.rule ≠ Rule.params_section) → c.params = []) ∧
    ((∀ i ∈ p.inner, i.rule ≠ Rule.respond_with_section) → c.respond_with = []) ∧
    c.actions = .AutoCrud := by
  obtain ⟨h1, h2, h3⟩ := parse_controller_items_defaults p.inner {} c h
  exact ⟨h1, h2, h3 rfl⟩

/-- Witness for C3: a controller with only a `respond_with` section has
empty params and `AutoCrud` actions. -/
theorem C3_witness :
    (Controller.mk [] ["json"] .AutoCrud).params = [] ∧
    (Controller.mk [] ["json"] .AutoCrud).actions = .AutoCrud := by
  have h := C3_controller_defaults
    ⟨.controller_section, "", [⟨.respond_with_section, "", [⟨.ident, "json", []⟩]⟩]⟩
    (Controller.mk [] ["json"] .AutoCrud) rfl
  exact ⟨h.1 (by decide), h.2.2⟩

/-- The entry loop of the bracketed-list branch parses entries element
for element, in order. -/
theorem parse_entries_forall :
    ∀ (es : List Pair) (l : List ParamEntry),
      parse_entries es = .ok l →
      List.Forall₂ (fun ep e => parse_param_entry ep = .ok e) es l := by
  intro es
  induction es with
  | nil =>
    intro l h
    simp only [parse_entries, Except.ok.injEq] at h
    subst h
    exact .nil
  | cons p ps ih =>
    intro l h
    simp only [parse_entries] at h
    cases hpe : parse_param_entry p with
    | error e => rw [hpe] at h; exact absurd h (by simp)
    | ok e =>
      rw [hpe] at h
      cases hps : parse_entries ps with
      | error e2 => rw [hps] at h; exact absurd h (by simp)
      | ok es2 =>
        rw [hps] at h
        simp only [Except.ok.injEq] at h
        subst h
        exact .cons hpe (ih es2 hps)

/-- C4: the bracketed-list form and the single bare-entry form normalize
to the same AST shape: a one-element `param_entry_list` and a bare
`param_entry` give the same profile, a one-element `format_list` and a
bare identifier give the same `respond_with` list, and multi-element
lists are preserved element for element in order. -/
theorem C4_shorthand_normalization :
    (∀ (r1 r2 : Rule) (s1 s2 s3 : String) (name_pair entry : Pair),
       entry.rule = Rule.param_entry →
       parse_params_profile ⟨r1, s1, [name_pair, ⟨.param_entry_list, s2, [entry]⟩]⟩ =
         parse_params_profile ⟨r2, s3, [name_pair, entry]⟩) ∧
    (∀ (r : Rule) (s1 s2 : String) (name_pair : Pair) (es : List Pair) (prof : ParamsProfile),
       parse_params_profile ⟨r, s1, [name_pair, ⟨.param_entry_list, s2, es⟩]⟩ = .ok prof →
       List.Forall₂ (fun ep e => parse_param_entry ep = .ok e) es prof.entries) ∧
    (∀ (r1 r2 : Rule) (s1 s2 s3 : String) (idp : Pair),
       idp.rule = Rule.ident →
       parse_respond_with ⟨r1, s1, [⟨.format_list, s2, [idp]⟩]⟩ =
         parse_respond_with ⟨r2, s3, [idp]⟩) ∧
    (∀ (r : Rule) (s1 s2 : String) (es : List Pair),
       parse_respond_with ⟨r, s1, [⟨.format_list, s2, es⟩]⟩ = .ok (es.map Pair.str)) := by
  refine ⟨?_, ?_, ?_, ?_⟩
  · intro r1 r2 s1 s2 s3 name_pair entry hrule
    obtain ⟨er, estr, einner⟩ := entry
    simp only [Pair.rule] at hrule
    subst hrule
    simp only [parse_params_profile, Pair.inner, Pair.rule, parse_entries]
    cases hpe : parse_param_entry ⟨.param_entry, estr, einner⟩ <;> simp [hpe]
  · intro r s1 s2 name_pair es prof h
    simp only [parse_params_profile, Pair.inner, Pair.rule] at h
    cases hes : parse_entries es with
    | error e => rw [hes] at h; exact absurd h (by simp)
    | ok l =>
      rw [hes] at h
      simp only [Except.ok.injEq] at h
      subst h
      exact parse_entries_forall es l hes
  · intro r1 r2 s1 s2 s3 idp hrule
    obtain ⟨ir, istr, iinner⟩ := idp
    simp only [Pair.rule] at hrule
    subst hrule
    simp [parse_respond_with, Pair.inner, Pair.rule, Pair.str]
  · intro r s1 s2 es
    simp [parse_respond_with, Pair.inner, Pair.rule]

/-- Witness for C4: `editable [a]` equals `editable a`, and
`respond_with [json]` equals `respond_with json`. -/
theorem C4_witness :
    parse_params_profile ⟨.params_profile, "",
        [⟨.ident, "editable", []⟩,
         ⟨.param_entry_list, "", [⟨.param_entry, "", [⟨.ident, "a", []⟩]⟩]⟩]⟩ =
      parse_params_profile ⟨.params_profile, "",
        [⟨.ident, "editable", []⟩, ⟨.param_entry, "", [⟨.ident, "a", []⟩]⟩]⟩ ∧
    parse_respond_with ⟨.respond_with_section, "",
        [⟨.format_list, "", [⟨.ident, "json", []⟩]⟩]⟩ =
      parse_respond_with ⟨.respond_with_section, "", [⟨.ident, "json", []⟩]⟩ :=
  ⟨C4_shorthand_normalization.1 .params_profile .params_profile "" "" ""
      ⟨.ident, "editable", []⟩ ⟨.param_entry, "", [⟨.ident, "a", []⟩]⟩ rfl,
   C4_shorthand_normalization.2.2.1 .respond_with_section .respond_with_section "" "" ""
      ⟨.ident, "json", []⟩ rfl⟩

/-- C9: a resource body containing more than one model section and more
than one controller section — which the grammar's
`(model_section | controller_section)*` repetition admits — parses
successfully, and each later section overwrites the previously built
`Model` (`Controller`): the result keeps only the last model section and
the last controller section, silently discarding the earlier ones. -/
theorem C9_later_section_overwrites
    (s path : String) (name_pair m1 m2 c1 c2 : Pair)
    (mod1 mod2 : Model) (ctl1 ctl2 : Controller)
    (hm1r : m1.rule = .model_section) (hm2r : m2.rule = .model_section)
    (hc1r : c1.rule = .controller_section) (hc2r : c2.rule = .controller_section)
    (hm1 : parse_model m1 = .ok mod1) (hm2 : parse_model m2 = .ok mod2)
    (hc1 : parse_controller c1 = .ok ctl1) (hc2 : parse_controller c2 = .ok ctl2) :
    parse_resource ⟨.resource, s, [name_pair, m1, m2, c1, c2]⟩ path =
      .ok { name := name_pair.str, model := some mod2, controller := some ctl2,
            file_path := path } := by
  obtain ⟨r1, s1, i1⟩ := m1
  obtain ⟨r2, s2, i2⟩ := m2
  obtain ⟨r3, s3, i3⟩ := c1
  obtain ⟨r4, s4, i4⟩ := c2
  simp only [Pair.rule] at hm1r hm2r hc1r hc2r
  subst hm1r hm2r hc1r hc2r
  simp [parse_resource, Pair.inner, Pair.rule, parse_resource_items, hm1, hm2, hc1, hc2]

/-- Witness for C9: a resource with two model sections and two controller
sections keeps only the later ones — the earlier model's field `a` is
discarded. -/
theorem C9_witness :
    parse_resource ⟨.resource, "",
        [⟨.ident, "A", []⟩,
         ⟨.model_section, "",
           [⟨.field_decl, "", [⟨.name_opt, "", [⟨.ident, "a", []⟩]⟩,
                               ⟨.type_ref, "", [⟨.ident, "Int", []⟩]⟩]⟩]⟩,
         ⟨.model_section, "", []⟩,
         ⟨.controller_section, "",
           [⟨.respond_with_section, "", [⟨.ident, "json", []⟩]⟩]⟩,
         ⟨.controller_section, "", []⟩]⟩ "a.via" =
      .ok { name := "A", model := some ⟨[]⟩,
            controller := some ⟨[], [], .AutoCrud⟩, file_path := "a.via" } :=
  C9_later_section_overwrites "" "a.via" ⟨.ident, "A", []⟩
    ⟨.model_section, "",
      [⟨.field_decl, "", [⟨.name_opt, "", [⟨.ident, "a", []⟩]⟩,
                          ⟨.type_ref, "", [⟨.ident, "Int", []⟩]⟩]⟩]⟩
    ⟨.model_section, "", []⟩
    ⟨.controller_section, "", [⟨.respond_with_section, "", [⟨.ident, "json", []⟩]⟩]⟩
    ⟨.controller_section, "", []⟩
    ⟨[⟨"a", ⟨"Int", false⟩, false, ⟨none⟩⟩]⟩ ⟨[]⟩
    ⟨[], ["json"], .AutoCrud⟩ ⟨[], [], .AutoCrud⟩
    rfl rfl rfl rfl rfl rfl rfl rfl

/-- A successful controller parse means every item carried one of the
three expected section rules. -/
theorem parse_controller_items_ok_rules :
    ∀ (items : List Pair) (acc c : Controller),
      parse_controller_items items acc = .ok c →
      ∀ i ∈ items, i.rule = Rule.params_section ∨ i.rule = Rule.respond_with_section ∨
        i.rule = Rule.actions_section := by
  intro items
  induction items with
  | nil => intro acc c _ i hi; exact absurd hi (List.not_mem_nil i)
  | cons i rest ih =>
    intro acc c h j hj
    cases hr : i.rule <;> simp only [parse_controller_items, hr] at h
    case params_section =>
      cases hps : parse_params_section i with
      | error e => rw [hps] at h; exact absurd h (by simp)
      | ok ps =>
        rw [hps] at h
        rcases List.mem_cons.mp hj with hji | hjr
        · exact hji ▸ Or.inl hr
        · exact ih _ _ h j hjr
    case respond_with_section =>
      cases hps : parse_respond_with i with
      | error e => rw [hps] at h; exact absurd h (by simp)
      | ok fs =>
        rw [hps] at h
        rcases List.mem_cons.mp hj with hji | hjr
        · exact hji ▸ Or.inr (Or.inl hr)
        · exact ih _ _ h j hjr
    case actions_section =>
      rcases List.mem_cons.mp hj with hji | hjr
      · exact hji ▸ Or.inr (Or.inr hr)
      · exact ih _ _ h j hjr
    all_goals exact absurd h (by simp)

/-- C2 counterexample: the claim says a rule tag a builder does not
expect always produces a returned error; but `parse_params_profile`, fed
a profile whose second inner node carries the unexpected `bool_literal`
rule, silently skips it (the `_ => {}` arm) and returns `Ok` with empty
entries, and `parse_respond_with` behaves the same way. -/
theorem C2_counterexample :
    parse_params_profile ⟨.params_profile, "",
        [⟨.ident, "editable", []⟩, ⟨.bool_literal, "true", []⟩]⟩ =
      .ok ⟨ParamsKind.Editable, []⟩ ∧
    parse_respond_with ⟨.respond_with_section, "", [⟨.bool_literal, "true", []⟩]⟩ =
      .ok [] :=
  ⟨rfl, rfl⟩

/-- C2 (amended): a rule tag the controller builder does not expect
produces a returned error, but the builders for params profiles and
respond_with sections do NOT: an inner node that is neither the expected
list rule nor the expected single-entry/identifier rule is silently
skipped, leaving the entries (respectively formats) empty. -/
theorem C2_amended_unexpected_rule_handling :
    (∀ (p : Pair),
       (∃ i ∈ p.inner, i.rule ≠ Rule.params_section ∧ i.rule ≠ Rule.respond_with_section ∧
          i.rule ≠ Rule.actions_section) →
       ∃ e, parse_controller p = .error e) ∧
    (∀ (r : Rule) (s : String) (name_pair x : Pair),
       x.rule ≠ Rule.param_entry_list → x.rule ≠ Rule.param_entry →
       parse_params_profile ⟨r, s, [name_pair, x]⟩ =
         .ok ⟨if name_pair.str = "editable" then .Editable else .Named name_pair.str, []⟩) ∧
    (∀ (r : Rule) (s : String) (x : Pair),
       x.rule ≠ Rule.format_list → x.rule ≠ Rule.ident →
       parse_respond_with ⟨r, s, [x]⟩ = .ok []) := by
  refine ⟨?_, ?_, ?_⟩
  · intro p hbad
    cases hres : parse_controller p with
    | error e => exact ⟨e, rfl⟩
    | ok c =>
      obtain ⟨i, hi, h1, h2, h3⟩ := hbad
      rcases parse_controller_items_ok_rules p.inner {} c hres i hi with h | h | h
      · exact absurd h h1
      · exact absurd h h2
      · exact absurd h h3
  · intro r s name_pair x h1 h2
    obtain ⟨xr, xs, xi⟩ := x
    simp only [Pair.rule] at h1 h2
    cases xr <;>
      simp_all [parse_params_profile, Pair.inner, Pair.rule, Pair.str]
  · intro r s x h1 h2
    obtain ⟨xr, xs, xi⟩ := x
    simp only [Pair.rule] at h1 h2
    cases xr <;>
      simp_all [parse_respond_with, Pair.inner, Pair.rule]

/-- Witness for C2's amended statement: a controller item with the
`field_decl` rule makes `parse_controller` error, while a `bool_literal`
node in the entries or formats slot is silently skipped. -/
theorem C2_amended_witness :
    (∃ e, parse_controller ⟨.controller_section, "", [⟨.field_decl, "", []⟩]⟩ = .error e) ∧
    parse_params_profile ⟨.params_profile, "",
        [⟨.ident, "admin", []⟩, ⟨.bool_literal, "false", []⟩]⟩ =
      .ok ⟨if "admin" = "editable" then .Editable else .Named "admin", []⟩ ∧
    parse_respond_with ⟨.respond_with_section, "", [⟨.bool_literal, "false", []⟩]⟩ = .ok [] :=
  ⟨C2_amended_unexpected_rule_handling.1 ⟨.controller_section, "", [⟨.field_decl, "", []⟩]⟩
      ⟨⟨.field_decl, "", []⟩, by simp [Pair.inner], by decide, by decide, by decide⟩,
   C2_amended_unexpected_rule_handling.2.1 .params_profile "" ⟨.ident, "admin", []⟩
      ⟨.bool_literal, "false", []⟩ (by decide) (by decide),
   C2_amended_unexpected_rule_handling.2.2 .respond_with_section ""
      ⟨.bool_literal, "false", []⟩ (by decide) (by decide)⟩

/-- The name/optional/visibility triples of a resource's backend model
artifact (all fields, in order, each with its visibility flag). -/
def modelTriples (r : Resource) : List (String × Bool × Bool) :=
  (modelArtifactFields (r.model.getD ⟨[]⟩)).map fieldTriple

/-- The name/optional/visibility triples of a resource's client type
artifact (the serialize-visible fields, in order). -/
def clientTriples (r : Resource) : List (String × Bool × Bool) :=
  (clientArtifactFields (r.model.getD ⟨[]⟩)).map fieldTriple

/-- Filtering by visibility commutes with taking triples. -/
theorem triples_filter_comm (fs : List Field) :
    (fs.filter serializeVisible).map fieldTriple
      = (fs.map fieldTriple).filter (fun t => t.2.2) := by
  induction fs with
  | nil => rfl
  | cons f fs ih =>
    by_cases hv : serializeVisible f = true
    · simp [List.filter_cons, hv, ih, fieldTriple]
    · simp only [Bool.not_eq_true] at hv
      simp [List.filter_cons, hv, ih, fieldTriple]

/-- C7: for every resource, the field name / optional /
serialize-visibility triples that `generate` renders into the client type
artifact are exactly the client-visible portion of the triples rendered
into the backend model artifact: fields with `serialize == Some(false)`
are the ones excluded from the client-visible representation on both
sides, and everything else matches one for one, in order. -/
theorem C7_cross_artifact_consistency (r : Resource) :
    clientTriples r = (modelTriples r).filter (fun t => t.2.2) :=
  triples_filter_comm (r.model.getD ⟨[]⟩).fields

/-- C8: `generate` is deterministic — two invocations on identical input
produce byte-identical ordered lists of generated files.  In this pure
embedding the generator takes no input other than the resource list, so
any two runs on equal inputs are equal outputs. -/
theorem C8_generate_deterministic (rs1 rs2 : List Resource) (h : rs1 = rs2) :
    generate rs1 = generate rs2 := by
  rw [h]

/-- Witness for C8: two runs of `generate` on the same one-resource list
agree. -/
theorem C8_witness :
    generate [⟨"Article", some ⟨[⟨"title", ⟨"String", false⟩, false, ⟨none⟩⟩]⟩,
               none, "a.via"⟩] =
      generate [⟨"Article", some ⟨[⟨"title", ⟨"String", false⟩, false, ⟨none⟩⟩]⟩,
                 none, "a.via"⟩] :=
  C8_generate_deterministic _ _ rfl

/-- When every file parses, the aggregate is exactly the concatenation of
the per-file resource lists, in file order. -/
theorem run_gen_parse_flatten :
    ∀ (files : List SourceFile) (rss : List (List Resource)),
      List.Forall₂ (fun f rs => parse_str f.contents f.path = .ok rs) files rss →
      run_gen_parse files = .ok rss.flatten := by
  intro files rss h
  induction h with
  | nil => rfl
  | cons hf _ ih => simp [run_gen_parse, hf, ih]

/-- A successful model parse relates field-declaration pairs to fields
one for one, in order. -/
theorem parse_model_items_forall :
    ∀ (items : List Pair) (fs : List Field),
      parse_model_items items = .ok fs →
      List.Forall₂ (fun item f => item.rule = Rule.field_decl ∧ parse_field item = .ok f)
        items fs := by
  intro items
  induction items with
  | nil =>
    intro fs h
    simp only [parse_model_items, Except.ok.injEq] at h
    subst h
    exact .nil
  | cons i rest ih =>
    intro fs h
    cases hr : i.rule <;> simp only [parse_model_items, hr] at h
    case field_decl =>
      cases hf : parse_field i with
      | error e => rw [hf] at h; exact absurd h (by simp)
      | ok f =>
        rw [hf] at h
        cases hrest : parse_model_items rest with
        | error e => rw [hrest] at h; exact absurd h (by simp)
        | ok fs2 =>
          rw [hrest] at h
          simp only [Except.ok.injEq] at h
          subst h
          exact .cons ⟨hr, hf⟩ (ih fs2 hrest)
    all_goals exact absurd h (by simp)

/-- C6: ordering is preserved end to end — `collect_via_files` yields the
discovered `.via` paths sorted lexicographically (a sorted permutation of
the filtered walk entries), the parse loop of `run_gen` appends each
file's resources to the aggregate in that same file order, and within a
parsed model the fields sequence matches the declaration order of the
field declarations. -/
theorem C6_ordering_preserved :
    (∀ entries : List WalkEntry,
       (collect_via_files entries).Sorted (· ≤ ·) ∧
       (collect_via_files entries).Perm
         ((entries.filter (fun e => e.isFile && extension e.path == some "via")).map (·.path))) ∧
    (∀ (files : List SourceFile) (rss : List (List Resource)),
       List.Forall₂ (fun f rs => parse_str f.contents f.path = .ok rs) files rss →
       run_gen_parse files = .ok rss.flatten) ∧
    (∀ (p : Pair) (m : Model), parse_model p = .ok m →
       List.Forall₂ (fun item f => item.rule = Rule.field_decl ∧ parse_field item = .ok f)
         p.inner m.fields) := by
  refine ⟨?_, run_gen_parse_flatten, ?_⟩
  · intro entries
    exact ⟨List.sorted_insertionSort (· ≤ ·) _, List.perm_insertionSort (· ≤ ·) _⟩
  · intro p m h
    simp only [parse_model] at h
    cases hitems : parse_model_items p.inner with
    | error e => rw [hitems] at h; exact absurd h (by simp)
    | ok fields =>
      rw [hitems] at h
      simp only [Except.ok.injEq] at h
      subst h
      exact parse_model_items_forall p.inner fields hitems

/-- Witness for C6: a two-entry walk list is sorted into lexicographic
order, a two-file run concatenates the per-file resources in file order,
and a two-field model keeps declaration order. -/
theorem C6_witness :
    (collect_via_files [⟨"b.via", true⟩, ⟨"a.via", true⟩, ⟨"c.txt", true⟩]).Sorted (· ≤ ·) ∧
    run_gen_parse [⟨"a.via", "resource A \x7b \x7d"⟩, ⟨"b.via", "resource B \x7b \x7d"⟩] =
      .ok ([[⟨"A", none, none, "a.via"⟩], [⟨"B", none, none, "b.via"⟩]].flatten) ∧
    List.Forall₂ (fun item f => item.rule = Rule.field_decl ∧ parse_field item = .ok f)
      (Pair.inner ⟨.model_section, "",
        [⟨.field_decl, "", [⟨.name_opt, "", [⟨.ident, "a", []⟩]⟩,
                            ⟨.type_ref, "", [⟨.ident, "Int", []⟩]⟩]⟩,
         ⟨.field_decl, "", [⟨.name_opt, "", [⟨.ident, "b", []⟩]⟩,
                            ⟨.type_ref, "", [⟨.ident, "Str", []⟩]⟩]⟩]⟩)
      [⟨"a", ⟨"Int", false⟩, false, ⟨none⟩⟩, ⟨"b", ⟨"Str", false⟩, false, ⟨none⟩⟩] :=
  ⟨(C6_ordering_preserved.1 [⟨"b.via", true⟩, ⟨"a.via", true⟩, ⟨"c.txt", true⟩]).1,
   C6_ordering_preserved.2.1 [⟨"a.via", "resource A \x7b \x7d"⟩, ⟨"b.via", "resource B \x7b \x7d"⟩]
     [[⟨"A", none, none, "a.via"⟩], [⟨"B", none, none, "b.via"⟩]]
     (.cons rfl (.cons rfl .nil)),
   C6_ordering_preserved.2.2
     ⟨.model_section, "",
        [⟨.field_decl, "", [⟨.name_opt, "", [⟨.ident, "a", []⟩]⟩,
                            ⟨.type_ref, "", [⟨.ident, "Int", []⟩]⟩]⟩,
         ⟨.field_decl, "", [⟨.name_opt, "", [⟨.ident, "b", []⟩]⟩,
                            ⟨.type_ref, "", [⟨.ident, "Str", []⟩]⟩]⟩]⟩
     ⟨[⟨"a", ⟨"Int", false⟩, false, ⟨none⟩⟩, ⟨"b", ⟨"Str", false⟩, false, ⟨none⟩⟩]⟩
     rfl⟩

/-- The parse loop of `run_gen` stops at the first failing file and
returns that file's error, independent of later files. -/
theorem run_gen_parse_first_error :
    ∀ (pre : List SourceFile) (f : SourceFile) (post : List SourceFile) (e : ViaError),
      (∀ g ∈ pre, ∃ rs, parse_str g.contents g.path = .ok rs) →
      parse_str f.contents f.path = .error e →
      run_gen_parse (pre ++ f :: post) = .error e := by
  intro pre
  induction pre with
  | nil =>
    intro f post e _ hf
    simp [run_gen_parse, hf]
  | cons g pre ih =>
    intro f post e hpre hf
    obtain ⟨rs, hg⟩ := hpre g (List.mem_cons_self g pre)
    have hrest := ih f post e (fun j hj => hpre j (List.mem_cons_of_mem g hj)) hf
    simp [run_gen_parse, hg, hrest]

/-- C5: input text that does not match the grammar makes `parse_str`
return an error — never a partial resource list — carrying the offending
file path and a line/column location; and in a multi-file run, the
pipeline aborts with the first failing file's error, so no generation
output is produced (the result is the error alone, not a `Generation`). -/
theorem C5_syntax_error_located_and_aborts :
    (∀ (src path : String) (e : PErr),
       pestParse src = .error e →
       parse_str src path =
         .error (ViaError.syntaxErr path (locate src e).1 (locate src e).2 e.msg)) ∧
    (∀ (pre : List SourceFile) (f : SourceFile) (post : List SourceFile) (e : ViaError),
       (∀ g ∈ pre, ∃ rs, parse_str g.contents g.path = .ok rs) →
       parse_str f.contents f.path = .error e →
       run_gen (pre ++ f :: post) = .error e) := by
  constructor
  · intro src path e h
    simp [parse_str, h]
  · intro pre f post e hpre hf
    simp [run_gen, run_gen_parse_first_error pre f post e hpre hf]

/-- Witness for C5: the spec's malformed-input scenario — a field
declaration lacking its separating colon — yields a `SyntaxError` whose
message carries the file name `b.via` and location 1:28, and a three-file
run (good file, bad file, further file) aborts with exactly that error. -/
theorem C5_witness :
    parse_str "resource A \x7b model \x7b title String \x7d \x7d" "b.via" =
      .error (ViaError.syntaxErr "b.via" 1 28 "expected :") ∧
    run_gen [⟨"a.via", "resource A \x7b \x7d"⟩,
             ⟨"b.via", "resource A \x7b model \x7b title String \x7d \x7d"⟩,
             ⟨"c.via", ""⟩] =
      .error (ViaError.syntaxErr "b.via" 1 28 "expected :") := by
  constructor
  · exact C5_syntax_error_located_and_aborts.1 "resource A \x7b model \x7b title String \x7d \x7d"
      "b.via" ⟨"String \x7d \x7d".toList, "expected :"⟩ rfl
  · refine C5_syntax_error_located_and_aborts.2 [⟨"a.via", "resource A \x7b \x7d"⟩]
      ⟨"b.via", "resource A \x7b model \x7b title String \x7d \x7d"⟩ [⟨"c.via", ""⟩]
      (ViaError.syntaxErr "b.via" 1 28 "expected :") ?_ rfl
    intro g hg
    rw [List.mem_singleton] at hg
    subst hg
    exact ⟨[⟨"A", none, none, "a.via"⟩], rfl⟩

/-- Whitespace-only input is skipped entirely. -/
theorem skipWs_eq_nil_of_all (cs : List Char) (h : cs.all isViaWs = true) :
    skipWs cs = [] := by
  induction cs with
  | nil => rfl
  | cons c cs ih =>
    simp only [List.all_cons, Bool.and_eq_true] at h
    simp [skipWs, h.1, ih h.2]

/-- C10: source text containing zero resource declarations — the empty
string and any whitespace-only input — parses successfully to an empty
resource list: the grammar accepts `resource* EOI` with zero iterations,
and the `parse_str` walk over a `file` pair holding only `EOI` collects
nothing. -/
theorem C10_no_resources_parses_empty (src path : String)
    (h : src.toList.all isViaWs = true) :
    parse_str src path = .ok [] := by
  have hskip : skipWs src.toList = [] := skipWs_eq_nil_of_all _ h
  have hpeek : peekTok "resource" src.toList = false := by
    unfold peekTok
    rw [hskip]
    decide
  have hres : pResources (src.toList.length + 1) src.toList = .ok ([], src.toList) := by
    simp only [pResources]
    rw [hpeek]
    simp
  unfold parse_str pestParse pFile
  simp only [hres, hskip]
  simp [parse_resources_walk, Pair.rule, Pair.inner]

/-- Witness for C10: a blank two-line input parses to no resources. -/
theorem C10_witness : parse_str "  \n\t \n" "empty.via" = .ok [] :=
  C10_no_resources_parses_empty "  \n\t \n" "empty.via" (by decide)

end Via
